import Mathlib

/-!
Shallow embedding of the 360° capture-and-stitch pipeline of
`src/frontend/src/components/ProCamera360.jsx` (listingspark-ai).

JavaScript numbers are modelled by `ℚ` (the algorithms here use only
field operations and comparisons on values that are exact in both
semantics); `Uint8ClampedArray` byte stores are modelled by `toByte`,
which clamps to `[0,255]` and rounds halves to even, as the platform
type does.  Raster buffers appear in two equivalent shapes: a
`List Pixel` (one record per RGBA pixel, matching the `i += 4` loops of
`enhanceImageData`) and a flat `List ℕ` of channel bytes (matching the
index arithmetic of `sharpenImage` and the stitcher).
-/

/-- `clamp` from the source: `Math.max(0, Math.min(255, value))`. -/
def clampQ (v : ℚ) : ℚ := max 0 (min 255 v)

/-- Round to the nearest integer, ties to even (IEEE / `Uint8ClampedArray`). -/
def roundHalfEven (q : ℚ) : ℤ :=
  let n := ⌊q⌋
  if q - n < 1/2 then n
  else if 1/2 < q - n then n + 1
  else if Even n then n else n + 1

/-- A store into a `Uint8ClampedArray` cell: clamp to `[0,255]`, then round
half to even. -/
def toByte (q : ℚ) : ℕ :=
  if q ≤ 0 then 0
  else if 255 ≤ q then 255
  else (roundHalfEven q).toNat

/-- One RGBA pixel of an `ImageData` buffer (`data[i..i+3]` for `i % 4 = 0`). -/
structure Pixel where
  r : ℕ
  g : ℕ
  b : ℕ
  a : ℕ
deriving DecidableEq, Repr

/-- `(data[i] + data[i+1] + data[i+2]) / 3` — the per-pixel brightness used by
the auto-levels scan of `enhanceImageData`. -/
def pixelBrightness (p : Pixel) : ℚ := ((p.r : ℚ) + (p.g : ℚ) + (p.b : ℚ)) / 3

/-- The first loop of `enhanceImageData`: fold the running
`(minBrightness, maxBrightness)` pair over every pixel, starting from
`(255, 0)`. -/
def brightnessRange (pxs : List Pixel) : ℚ × ℚ :=
  pxs.foldl
    (fun mm p => (min mm.1 (pixelBrightness p), max mm.2 (pixelBrightness p)))
    (255, 0)

/-- `applySCurve` from the source: normalize to `[0,1]`, apply
`2x²` below `0.5` and `1 - 2(1-x)²` above, rescale and clamp. -/
def applySCurve (value : ℚ) : ℚ :=
  let normalized := value / 255
  let curved :=
    if normalized < 1/2 then 2 * normalized * normalized
    else 1 - 2 * (1 - normalized) * (1 - normalized)
  clampQ (curved * 255)

/-- Auto-levels of one channel value: `(v - minBrightness) * scale`, stored
into the clamped byte array. -/
def autoLevelChannel (minB scale : ℚ) (v : ℕ) : ℕ :=
  toByte (((v : ℚ) - minB) * scale)

/-- S-curve of one (already stored) channel value. -/
def sCurveChannel (v : ℕ) : ℕ := toByte (applySCurve (v : ℚ))

/-- Saturation boost of one pixel: push every channel away from the channel
average by the fixed factor `1.15`, clamp, store. -/
def saturatePixel (p : Pixel) : Pixel :=
  let avg : ℚ := ((p.r : ℚ) + (p.g : ℚ) + (p.b : ℚ)) / 3
  let saturationBoost : ℚ := 115/100
  { r := toByte (clampQ (avg + ((p.r : ℚ) - avg) * saturationBoost))
    g := toByte (clampQ (avg + ((p.g : ℚ) - avg) * saturationBoost))
    b := toByte (clampQ (avg + ((p.b : ℚ) - avg) * saturationBoost))
    a := p.a }

/-- `enhanceImageData` from the source: one scan computes the global
brightness range and the scale (`255/range`, or `1` when the range is not
positive); a second fused loop then applies auto-levels, the contrast
S-curve and the saturation boost to each pixel's RGB channels in order,
leaving alpha untouched. -/
def enhanceImageData (pxs : List Pixel) : List Pixel :=
  let mm := brightnessRange pxs
  let range := mm.2 - mm.1
  let scale : ℚ := if 0 < range then 255 / range else 1
  pxs.map (fun p =>
    let r1 := autoLevelChannel mm.1 scale p.r
    let g1 := autoLevelChannel mm.1 scale p.g
    let b1 := autoLevelChannel mm.1 scale p.b
    let r2 := sCurveChannel r1
    let g2 := sCurveChannel g1
    let b2 := sCurveChannel b1
    saturatePixel { r := r2, g := g2, b := b2, a := p.a })

/-- Pass 1 of the specification's reading of the enhancer: auto-levels alone,
applied buffer-wide with the min/scale computed from this pass's input. -/
def autoLevelsPass (pxs : List Pixel) : List Pixel :=
  let mm := brightnessRange pxs
  let range := mm.2 - mm.1
  let scale : ℚ := if 0 < range then 255 / range else 1
  pxs.map (fun p =>
    { r := autoLevelChannel mm.1 scale p.r
      g := autoLevelChannel mm.1 scale p.g
      b := autoLevelChannel mm.1 scale p.b
      a := p.a })

/-- Pass 2: the contrast S-curve on every channel. -/
def sCurvePass (pxs : List Pixel) : List Pixel :=
  pxs.map (fun p =>
    { r := sCurveChannel p.r, g := sCurveChannel p.g, b := sCurveChannel p.b
      a := p.a })

/-- Pass 3: the saturation boost on every pixel. -/
def saturationPass (pxs : List Pixel) : List Pixel := pxs.map saturatePixel

/-- `handleOrientation`'s rotation measure: absolute difference of the two
headings, folded onto the shorter circular arc when it exceeds `180`. -/
def headingDelta (a b : ℚ) : ℚ :=
  let rotationDegrees := |a - b|
  if 180 < rotationDegrees then 360 - rotationDegrees else rotationDegrees

/-- One row of `QUALITY_SETTINGS`: target frame count, panorama width and
height, JPEG encode quality. -/
structure QualitySetting where
  frames : ℕ
  width : ℕ
  height : ℕ
  quality : ℚ
deriving DecidableEq, Repr

/-- The keys of the `QUALITY_SETTINGS` table. -/
inductive Quality
  | high
  | ultra
  | pro
deriving DecidableEq, Repr

/-- The `QUALITY_SETTINGS` table of `ProCamera360`. -/
def QUALITY_SETTINGS : Quality → QualitySetting
  | .high => { frames := 24, width := 3840, height := 1920, quality := 85/100 }
  | .ultra => { frames := 36, width := 4096, height := 2048, quality := 92/100 }
  | .pro => { frames := 60, width := 8192, height := 4096, quality := 95/100 }

/-- Mutable state of one `startGuidedCapture` interval: the closure variables
`lastCaptureAngle` and `frames` (each captured frame remembered here by the
heading at which it was taken). -/
structure GuidedState where
  lastCaptureAngle : ℚ
  frames : List ℚ
deriving DecidableEq, Repr

/-- One 200 ms tick of the guided-capture interval, at current heading
`currentAngle`: capture exactly when
`Math.abs(currentAngle - lastCaptureAngle) >= 360 / settings.frames` or no
frame exists yet; on capture, push the frame and move `lastCaptureAngle` to
the current heading.  (The frame grab is assumed to succeed; a null frame
leaves the state unchanged, which the spec treats as a recoverable miss.) -/
def guidedTick (frameTarget : ℕ) (s : GuidedState) (currentAngle : ℚ) :
    GuidedState :=
  let angleIncrement : ℚ := 360 / (frameTarget : ℚ)
  let angleDiff := |currentAngle - s.lastCaptureAngle|
  if angleIncrement ≤ angleDiff ∨ s.frames = [] then
    { lastCaptureAngle := currentAngle, frames := s.frames ++ [currentAngle] }
  else s

/-- The capture condition as the specification words it: the shortest-arc
delta from the session's REFERENCE heading has passed the next multiple of
`360 / frameTarget` not yet captured (with `framesLen` frames captured so
far), or no frame exists yet. -/
def specShouldCapture (frameTarget : ℕ) (reference current : ℚ)
    (framesLen : ℕ) : Prop :=
  framesLen = 0 ∨
    (framesLen : ℚ) * (360 / (frameTarget : ℚ)) ≤ headingDelta reference current

instance (frameTarget : ℕ) (reference current : ℚ) (framesLen : ℕ) :
    Decidable (specShouldCapture frameTarget reference current framesLen) := by
  unfold specShouldCapture; infer_instance

/-- Outcome of the guided session's 60 s safety timeout. -/
inductive SessionOutcome
  | completed (frames : ℕ)
  | aborted (reason : String)
deriving DecidableEq, Repr

/-- The 60 s safety-timeout handler of `startGuidedCapture`: hand the frames
to the stitcher when `frames.length >= settings.frames * 0.75`, otherwise
stop capturing and report insufficient coverage. -/
def guidedTimeout (frameTarget framesLen : ℕ) : SessionOutcome :=
  if (frameTarget : ℚ) * (75/100) ≤ (framesLen : ℚ) then .completed framesLen
  else .aborted "Not enough coverage. Try again."

/-- The guided session-timeout delay, milliseconds (`setTimeout(..., 60000)`). -/
def guidedTimeoutMs : ℕ := 60000

/-- Mutable state of one `startAutoCapture` loop: the `frames` array length,
the elapsed wall-clock time `Date.now() - startTime` in milliseconds, and
whether the interval is still installed. -/
structure AutoState where
  frames : ℕ
  elapsedMs : ℕ
  running : Bool
deriving DecidableEq, Repr

/-- The auto-capture duration budget, milliseconds (`captureDuration`). -/
def captureDuration : ℕ := 20000

/-- One 500 ms tick of the `startAutoCapture` interval on the idealized
timeline (tick `k` fires at `500 * k` ms and every frame grab succeeds):
capture a frame unconditionally, then clear the interval exactly when the
elapsed time has reached the 20 s budget.  No orientation value and no
frame-count target is consulted. -/
def autoTick (s : AutoState) : AutoState :=
  if s.running then
    let frames := s.frames + 1
    let elapsed := s.elapsedMs + 500
    { frames := frames, elapsedMs := elapsed,
      running := decide (elapsed < captureDuration) }
  else s

/-- The auto-capture state after `k` ticks from the start of the session. -/
def autoRun (k : ℕ) : AutoState :=
  Nat.iterate autoTick k { frames := 0, elapsedMs := 0, running := true }

/-- The `disabled` prop of the manual-mode Process button:
`capturedFrames.length < 12`.  The component's `settings` are in scope but
the expression does not read them. -/
def processDisabled (_settings : QualitySetting) (capturedLen : ℕ) : Bool :=
  capturedLen < 12

/-- The 3×3 sharpening kernel of `sharpenImage`. -/
def sharpenKernel : List ℤ := [-1, -1, -1, -1, 9, -1, -1, -1, -1]

/-- `clamp` applied to an integer convolution sum, stored as a byte. -/
def clampSum (v : ℤ) : ℕ := (max 0 (min 255 v)).toNat

/-- The inner double loop of `sharpenImage`: the kernel-weighted sum over the
3×3 neighbourhood of `(x, y)` in channel `c`, reading the `original`
snapshot.  Only evaluated for `1 ≤ x` and `1 ≤ y`, so the natural
subtraction `x + kx - 1` agrees with the source's integer arithmetic. -/
def convAt (original : List ℕ) (width x y c : ℕ) : ℤ :=
  (List.range 3).foldl (fun acc ky =>
    (List.range 3).foldl (fun acc kx =>
      let px := x + kx - 1
      let py := y + ky - 1
      let idx := (py * width + px) * 4 + c
      acc + (original.getD idx 0 : ℤ) * sharpenKernel.getD (ky * 3 + kx) 0)
      acc) 0

/-- `sharpenImage` from the source: snapshot the buffer into `original`, then
for every interior pixel (`1 ≤ y < height - 1`, `1 ≤ x < width - 1`) and
every color channel `c < 3`, overwrite `data[(y*width + x)*4 + c]` with the
clamped kernel sum computed from `original`.  Alpha bytes and edge pixels
are never written. -/
def sharpenImage (width height : ℕ) (data : List ℕ) : List ℕ :=
  let original := data
  (List.range' 1 (height - 2)).foldl (fun dy y =>
    (List.range' 1 (width - 2)).foldl (fun dx x =>
      (List.range 3).foldl (fun dc c =>
        dc.set ((y * width + x) * 4 + c)
          (clampSum (convAt original width x y c)))
        dx) dy) data

/-- `ctx.fillRect(x0, y0, rw, rh)` with an opaque fill color, on a flat RGBA
buffer of pixel width `w`: every channel byte of every pixel inside the
rectangle becomes the corresponding channel of `color`. -/
def fillRect (w x0 y0 rw rh : ℕ) (color : Pixel) (canvas : List ℕ) : List ℕ :=
  canvas.mapIdx (fun i v =>
    let p := i / 4
    let x := p % w
    let y := p / w
    if x0 ≤ x ∧ x < x0 + rw ∧ y0 ≤ y ∧ y < y0 + rh then
      match i % 4 with
      | 0 => color.r
      | 1 => color.g
      | 2 => color.b
      | _ => color.a
    else v)

/-- The raster pipeline of `stitchProfessionalPanorama`, acting on the canvas
buffer: fill the whole `targetWidth × targetHeight` canvas with opaque black
(`fillStyle = '#000000'`), then for each frame index `i` draw the frame's
bitmap into its slice and, for `i > 0`, apply the `destination-out` gradient
blend at the slice's left edge; finally, when AI enhancement is on, run the
sharpening pass.  The per-frame `drawImage`/`createImageBitmap` scaling and
the gradient compositing are platform primitives, abstracted here as the
`draw` and `blend` parameters (both deterministic functions of the frame
index and the canvas). -/
def stitchPixels (targetWidth targetHeight : ℕ) (aiEnh : Bool)
    (draw blend : ℕ → List ℕ → List ℕ) (numFrames : ℕ)
    (canvas0 : List ℕ) : List ℕ :=
  let c1 := fillRect targetWidth 0 0 targetWidth targetHeight
    { r := 0, g := 0, b := 0, a := 255 } canvas0
  let c2 := (List.range numFrames).foldl (fun c i =>
      let cDrawn := draw i c
      if 0 < i then blend i cDrawn else cDrawn) c1
  if aiEnh then sharpenImage targetWidth targetHeight c2 else c2

/-- The artifact exported by `stitchProfessionalPanorama`: the assembled
raster plus the capture metadata this model tracks. -/
structure PanoramaArtifact where
  pixels : List ℕ
  frameCount : ℕ
deriving DecidableEq, Repr

/-- `stitchProfessionalPanorama` as a fallible operation: `none` would model
the `catch` branch.  The function allocates a fresh canvas (all-zero
buffer), runs the raster pipeline and exports the blob; no step of that
path can throw — in particular there is no emptiness check on `frames`, and
with `frames.length = 0` the slice loop simply does not run (the division
`targetWidth / frames.length` feeds only the abstracted per-frame
primitives), so the result is always `some` artifact. -/
def stitchProfessionalPanorama (settings : QualitySetting) (aiEnh : Bool)
    (draw blend : ℕ → List ℕ → List ℕ) (numFrames : ℕ) :
    Option PanoramaArtifact :=
  some
    { pixels := stitchPixels settings.width settings.height aiEnh draw blend
        numFrames (List.replicate (4 * (settings.width * settings.height)) 0)
      frameCount := numFrames }

/-- The flat list of all byte indices written by `sharpenImage` on a
`width × height` raster, in write order. -/
def sharpenIdxs (width height : ℕ) : List ℕ :=
  (List.range' 1 (height - 2)).flatMap (fun y =>
    (List.range' 1 (width - 2)).flatMap (fun x =>
      (List.range 3).map (fun c => (y * width + x) * 4 + c)))

/-- The value `sharpenImage` writes at byte index `j`, expressed as a
function of `j` alone (coordinates recovered from the index). -/
def sharpenWrite (original : List ℕ) (width j : ℕ) : ℕ :=
  clampSum (convAt original width (j / 4 % width) (j / 4 / width) (j % 4))

/-- The `w × h` canvas after the opaque-black `fillRect`: every pixel is
`(0, 0, 0, 255)`, flattened to channel bytes. -/
def blackCanvas (w h : ℕ) : List ℕ :=
  (List.range (4 * (w * h))).map (fun i => if i % 4 = 3 then 255 else 0)

/-! ### Helper lemmas about in-place buffer writes -/

theorem getD_set_eq_if (l : List ℕ) (i j v : ℕ) :
    (l.set i v).getD j 0 = if i = j ∧ j < l.length then v else l.getD j 0 := by
  simp only [List.getD_eq_getElem?_getD, List.getElem?_set]
  by_cases hij : i = j
  · subst hij
    by_cases hi : i < l.length
    · simp [hi]
    · rw [List.getElem?_eq_none (by omega)]
      simp [hi]
  · simp [hij]

theorem foldl_set_getD (f : ℕ → ℕ) (idxs : List ℕ) (l : List ℕ) (j : ℕ) :
    (idxs.foldl (fun d i => d.set i (f i)) l).getD j 0 =
      if j ∈ idxs ∧ j < l.length then f j else l.getD j 0 := by
  induction idxs generalizing l with
  | nil => simp
  | cons i rest ih =>
    simp only [List.foldl_cons]
    rw [ih, List.length_set, getD_set_eq_if]
    by_cases hl : j < l.length
    · by_cases hm : j ∈ rest
      · simp [hm, hl, List.mem_cons]
      · by_cases hij : i = j
        · subst hij
          simp [hm, hl, List.mem_cons]
        · have hji : ¬ j = i := fun h => hij h.symm
          simp [List.mem_cons, hm, hl, hij, hji]
    · simp [hl]

theorem foldl_set_length (f : ℕ → ℕ) (idxs : List ℕ) (l : List ℕ) :
    (idxs.foldl (fun d i => d.set i (f i)) l).length = l.length := by
  induction idxs generalizing l with
  | nil => rfl
  | cons i rest ih =>
    simp only [List.foldl_cons]
    rw [ih, List.length_set]

theorem foldl_flatMap {α β γ : Type} (g : β → γ → β) (h : α → List γ)
    (l : List α) (init : β) :
    (l.flatMap h).foldl g init = l.foldl (fun acc a => (h a).foldl g acc) init := by
  induction l generalizing init with
  | nil => rfl
  | cons a rest ih =>
    simp only [List.flatMap_cons, List.foldl_append, List.foldl_cons]
    exact ih _

/-! ### A write-indexed view of `sharpenImage` -/

theorem sharpenImage_eq_foldl (width height : ℕ) (data : List ℕ) :
    sharpenImage width height data =
      (sharpenIdxs width height).foldl
        (fun d i => d.set i (sharpenWrite data width i)) data := by
  unfold sharpenImage sharpenIdxs
  rw [foldl_flatMap]
  apply List.foldl_ext
  intro acc y _
  rw [foldl_flatMap]
  apply List.foldl_ext
  intro acc' x hx
  rw [List.foldl_map]
  apply List.foldl_ext
  intro acc'' c hc
  have hc3 : c < 3 := List.mem_range.mp hc
  have hx' : 1 ≤ x ∧ x < 1 + (width - 2) := List.mem_range'_1.mp hx
  have hxw : x < width := by omega
  have hw : 0 < width := by omega
  congr 1
  unfold sharpenWrite
  have h4 : ((y * width + x) * 4 + c) / 4 = y * width + x := by omega
  have hm4 : ((y * width + x) * 4 + c) % 4 = c := by omega
  rw [h4, hm4]
  have hmw : (y * width + x) % width = x := by
    rw [mul_comm, Nat.mul_add_mod, Nat.mod_eq_of_lt hxw]
  have hdw : (y * width + x) / width = y := by
    rw [mul_comm, Nat.mul_add_div hw, Nat.div_eq_of_lt hxw, Nat.add_zero]
  rw [hmw, hdw]

theorem mem_sharpenIdxs (width height j : ℕ) :
    j ∈ sharpenIdxs width height ↔
      j % 4 < 3 ∧ 1 ≤ j / 4 % width ∧ j / 4 % width < width - 1 ∧
        1 ≤ j / 4 / width ∧ j / 4 / width < height - 1 := by
  unfold sharpenIdxs
  simp only [List.mem_flatMap, List.mem_map, List.mem_range'_1, List.mem_range]
  constructor
  · rintro ⟨y, ⟨hy1, hy2⟩, x, ⟨hx1, hx2⟩, c, hc, rfl⟩
    have hxw : x < width := by omega
    have hw : 0 < width := by omega
    have h4 : ((y * width + x) * 4 + c) / 4 = y * width + x := by omega
    have hm4 : ((y * width + x) * 4 + c) % 4 = c := by omega
    have hmw : (y * width + x) % width = x := by
      rw [mul_comm, Nat.mul_add_mod, Nat.mod_eq_of_lt hxw]
    have hdw : (y * width + x) / width = y := by
      rw [mul_comm, Nat.mul_add_div hw, Nat.div_eq_of_lt hxw, Nat.add_zero]
    rw [h4, hm4, hmw, hdw]
    omega
  · rintro ⟨hc, hx1, hx2, hy1, hy2⟩
    refine ⟨j / 4 / width, ⟨hy1, by omega⟩, j / 4 % width, ⟨hx1, by omega⟩,
      j % 4, hc, ?_⟩
    have h1 : j / 4 / width * width + j / 4 % width = j / 4 :=
      Nat.div_add_mod' (j / 4) width
    have h2 : j / 4 * 4 + j % 4 = j := Nat.div_add_mod' j 4
    rw [h1, h2]

/-- Pointwise description of `sharpenImage` on a raster: interior color
bytes receive the clamped convolution of the original buffer; all other
bytes keep their value. -/
theorem sharpen_getD (width height : ℕ) (data : List ℕ) (j : ℕ) :
    (sharpenImage width height data).getD j 0 =
      if (j % 4 < 3 ∧ 1 ≤ j / 4 % width ∧ j / 4 % width < width - 1 ∧
          1 ≤ j / 4 / width ∧ j / 4 / width < height - 1) ∧ j < data.length then
        clampSum (convAt data width (j / 4 % width) (j / 4 / width) (j % 4))
      else data.getD j 0 := by
  rw [sharpenImage_eq_foldl, foldl_set_getD]
  simp only [mem_sharpenIdxs, sharpenWrite]

theorem sharpen_length (width height : ℕ) (data : List ℕ) :
    (sharpenImage width height data).length = data.length := by
  rw [sharpenImage_eq_foldl, foldl_set_length]

/-! ### The background fill and the all-black canvas -/

theorem blackCanvas_getD (w h j : ℕ) (hj : j % 4 ≠ 3) :
    (blackCanvas w h).getD j 0 = 0 := by
  unfold blackCanvas
  rw [List.getD_eq_getElem?_getD, List.getElem?_map]
  by_cases hlt : j < 4 * (w * h)
  · rw [List.getElem?_range hlt]
    simp [hj]
  · rw [List.getElem?_eq_none]
    · rfl
    · simpa using Nat.le_of_not_lt hlt

/-- `ctx.fillRect(0, 0, w, h)` with opaque black covers the whole canvas:
whatever the previous contents of a correctly-sized buffer, the result is
the all-black canvas. -/
theorem fillRect_full (w h : ℕ) (c : List ℕ) (hc : c.length = 4 * (w * h)) :
    fillRect w 0 0 w h { r := 0, g := 0, b := 0, a := 255 } c
      = blackCanvas w h := by
  unfold fillRect
  apply List.ext_getElem
  · rw [List.length_mapIdx, hc]
    unfold blackCanvas
    rw [List.length_map, List.length_range]
  · intro n h1 h2
    rw [List.getElem_mapIdx]
    have hn : n < 4 * (w * h) := by
      rw [List.length_mapIdx, hc] at h1
      exact h1
    have hwh : 0 < w * h := by
      rcases Nat.eq_zero_or_pos (w * h) with h0 | h0
      · omega
      · exact h0
    have hw : 0 < w := by
      rcases Nat.eq_zero_or_pos w with h0 | h0
      · subst h0; simp at hwh
      · exact h0
    have hp : n / 4 < w * h := by omega
    have hx : n / 4 % w < w := Nat.mod_lt _ hw
    have hy : n / 4 / w < h := Nat.div_lt_of_lt_mul hp
    have hcond : 0 ≤ n / 4 % w ∧ n / 4 % w < 0 + w ∧ 0 ≤ n / 4 / w ∧
        n / 4 / w < 0 + h :=
      ⟨Nat.zero_le _, by omega, Nat.zero_le _, by omega⟩
    simp only [if_pos hcond]
    unfold blackCanvas
    rw [List.getElem_map, List.getElem_range]
    have h4 : n % 4 = 0 ∨ n % 4 = 1 ∨ n % 4 = 2 ∨ n % 4 = 3 := by omega
    rcases h4 with h4 | h4 | h4 | h4 <;> rw [h4] <;> rfl

/-- A kernel sum over all-zero reads is zero: if every byte the convolution
reads (all of which sit in channel `c`) is zero, the sum is zero. -/
theorem convAt_eq_zero (orig : List ℕ) (width x y c : ℕ)
    (hread : ∀ j, j % 4 = c % 4 → orig.getD j 0 = 0) :
    convAt orig width x y c = 0 := by
  unfold convAt
  have e : List.range 3 = [0, 1, 2] := rfl
  rw [e]
  simp only [List.foldl_cons, List.foldl_nil]
  rw [hread _ (by omega), hread _ (by omega), hread _ (by omega),
    hread _ (by omega), hread _ (by omega), hread _ (by omega),
    hread _ (by omega), hread _ (by omega), hread _ (by omega)]
  norm_num

/-- Sharpening the all-black canvas leaves it unchanged. -/
theorem sharpen_blackCanvas (w h : ℕ) :
    sharpenImage w h (blackCanvas w h) = blackCanvas w h := by
  apply List.ext_getElem
  · rw [sharpen_length]
  · intro n h1 h2
    rw [← List.getD_eq_getElem _ 0 h2, ← List.getD_eq_getElem _ 0 h1]
    rw [sharpen_getD]
    by_cases hcond : (n % 4 < 3 ∧ 1 ≤ n / 4 % w ∧ n / 4 % w < w - 1 ∧
        1 ≤ n / 4 / w ∧ n / 4 / w < h - 1) ∧ n < (blackCanvas w h).length
    · rw [if_pos hcond]
      rw [convAt_eq_zero]
      · rw [blackCanvas_getD]
        · rfl
        · omega
      · intro j hj
        apply blackCanvas_getD
        omega
    · rw [if_neg hcond]

/-! ### Enhancement-pipeline lemmas -/

theorem toByte_zero : toByte 0 = 0 := by
  unfold toByte
  norm_num

theorem applySCurve_zero : applySCurve 0 = 0 := by
  unfold applySCurve clampQ
  norm_num

theorem sCurveChannel_zero : sCurveChannel 0 = 0 := by
  unfold sCurveChannel
  rw [Nat.cast_zero, applySCurve_zero, toByte_zero]

theorem saturatePixel_zero (a : ℕ) :
    saturatePixel { r := 0, g := 0, b := 0, a := a }
      = { r := 0, g := 0, b := 0, a := a } := by
  unfold saturatePixel clampQ
  norm_num [toByte_zero]

theorem foldl_minmax_const (l : List Pixel) (q : ℚ)
    (hall : ∀ p ∈ l, pixelBrightness p = q) :
    l.foldl
      (fun mm p => (min mm.1 (pixelBrightness p), max mm.2 (pixelBrightness p)))
      (q, q) = (q, q) := by
  induction l with
  | nil => rfl
  | cons p rest ih =>
    have hp : pixelBrightness p = q := hall p (List.mem_cons_self p rest)
    simp only [List.foldl_cons, hp, min_self, max_self]
    exact ih (fun p' hp' => hall p' (List.mem_cons_of_mem _ hp'))

theorem brightnessRange_const (pxs : List Pixel) (q : ℚ)
    (h0 : 0 ≤ q) (h255 : q ≤ 255) (hne : pxs ≠ [])
    (hall : ∀ p ∈ pxs, pixelBrightness p = q) :
    brightnessRange pxs = (q, q) := by
  cases pxs with
  | nil => exact absurd rfl hne
  | cons p rest =>
    have hp : pixelBrightness p = q := hall p (List.mem_cons_self p rest)
    unfold brightnessRange
    simp only [List.foldl_cons, hp]
    rw [min_eq_right h255, max_eq_right h0]
    exact foldl_minmax_const rest q
      (fun p' hp' => hall p' (List.mem_cons_of_mem _ hp'))

/-! ### Claim theorems: frame enhancement -/

/-- C1: `enhance(pixels)` returns a buffer of the same dimensions obtained
by applying, in order, to every pixel: (1) auto-levels with the global
min/max pixel luminance and `scale = 255/(max-min)` (`1` when `max = min`),
each channel remapped to `(v - min) * scale` clamped to `[0,255]`;
(2) the contrast S-curve `f(x) = 2x²` / `1 - 2(1-x)²` on each normalized
channel; (3) the saturation boost away from the pixel's channel average by
the fixed factor `1.15`, clamped.  The fused loop of the source equals the
three sequential buffer passes. -/
theorem enhance_is_levels_then_scurve_then_saturation (pxs : List Pixel) :
    enhanceImageData pxs = saturationPass (sCurvePass (autoLevelsPass pxs)) ∧
      (enhanceImageData pxs).length = pxs.length := by
  constructor
  · unfold enhanceImageData autoLevelsPass sCurvePass saturationPass
    rw [List.map_map, List.map_map]
    rfl
  · unfold enhanceImageData
    rw [List.length_map]

/-- C10: on any non-empty uniform gray raster (every color channel of every
pixel equal to one constant `g ≤ 255`, pure white included), the enhancer
returns the all-black raster with alpha bytes unchanged: auto-levels uses
`scale = 1` but still subtracts the minimum, sending every RGB channel to
`0`, and the S-curve and saturation steps fix `0`. -/
theorem enhance_uniform_gray_is_black (pxs : List Pixel) (g : ℕ)
    (hne : pxs ≠ []) (hg : g ≤ 255)
    (hall : ∀ p ∈ pxs, p.r = g ∧ p.g = g ∧ p.b = g) :
    enhanceImageData pxs
      = pxs.map (fun p => { r := 0, g := 0, b := 0, a := p.a }) := by
  have hq0 : (0 : ℚ) ≤ (g : ℚ) := by positivity
  have hq255 : (g : ℚ) ≤ 255 := by exact_mod_cast hg
  have hbr : ∀ p ∈ pxs, pixelBrightness p = (g : ℚ) := by
    intro p hp
    obtain ⟨hr, hgg, hb⟩ := hall p hp
    unfold pixelBrightness
    rw [hr, hgg, hb]
    ring
  have hmm := brightnessRange_const pxs (g : ℚ) hq0 hq255 hne hbr
  unfold enhanceImageData
  rw [hmm]
  dsimp only
  have hscale : (if (0 : ℚ) < (g : ℚ) - (g : ℚ) then 255 / ((g : ℚ) - (g : ℚ))
      else 1) = 1 := by
    rw [sub_self]
    norm_num
  rw [hscale]
  apply List.map_congr_left
  intro p hp
  obtain ⟨hr, hgg, hb⟩ := hall p hp
  have hauto : autoLevelChannel (g : ℚ) 1 g = 0 := by
    unfold autoLevelChannel
    rw [mul_one, sub_self, toByte_zero]
  rw [hr, hgg, hb, hauto, sCurveChannel_zero, saturatePixel_zero]

/-! ### Claim theorems: heading delta -/

/-- C5: for headings `a, b ∈ [0,360)` the delta computation is symmetric
and bounded by `[0,180]` (shorter circular arc), and `delta(350,10) = 20`. -/
theorem headingDelta_symm_bounded (a b : ℚ) (ha0 : 0 ≤ a) (ha : a < 360)
    (hb0 : 0 ≤ b) (hb : b < 360) :
    headingDelta a b = headingDelta b a ∧ 0 ≤ headingDelta a b ∧
      headingDelta a b ≤ 180 ∧ headingDelta 350 10 = 20 := by
  have habs : |a - b| < 360 := by
    rw [abs_sub_lt_iff]
    constructor <;> linarith
  have hnn : (0 : ℚ) ≤ |a - b| := abs_nonneg _
  refine ⟨?_, ?_, ?_, ?_⟩
  · unfold headingDelta
    rw [abs_sub_comm]
  · unfold headingDelta
    dsimp only
    split <;> linarith
  · unfold headingDelta
    dsimp only
    split
    · linarith
    · linarith [not_lt.mp (by assumption : ¬ (180 : ℚ) < |a - b|)]
  · unfold headingDelta
    norm_num

/-- C5 witness: the theorem instantiated at the spec's own example,
`a = 350`, `b = 10`. -/
theorem headingDelta_symm_bounded_witness :
    (0 ≤ (350 : ℚ)) ∧ (350 : ℚ) < 360 ∧ (0 ≤ (10 : ℚ)) ∧ (10 : ℚ) < 360 ∧
      (headingDelta 350 10 = headingDelta 10 350 ∧ 0 ≤ headingDelta 350 10 ∧
        headingDelta 350 10 ≤ 180 ∧ headingDelta 350 10 = 20) :=
  ⟨by norm_num, by norm_num, by norm_num, by norm_num,
    headingDelta_symm_bounded 350 10 (by norm_num) (by norm_num) (by norm_num)
      (by norm_num)⟩

/-! ### Claim theorems: scheduler -/

/-- C2: when the 60 s guided-session timeout fires, the session completes
(handing the frames to the assembler) exactly when at least 75% of the
profile's frame count has been captured (`3·target ≤ 4·frames`), otherwise
it aborts with the insufficient-coverage message; with the 36-frame ultra
profile and only 20 frames the session is aborted. -/
theorem guidedTimeout_threshold :
    (∀ target frames : ℕ,
        guidedTimeout target frames = .completed frames ↔
          3 * target ≤ 4 * frames) ∧
      (QUALITY_SETTINGS .ultra).frames = 36 ∧ guidedTimeoutMs = 60000 ∧
      guidedTimeout 36 20 = .aborted "Not enough coverage. Try again." := by
  refine ⟨?_, rfl, rfl, ?_⟩
  · intro t f
    unfold guidedTimeout
    split
    case isTrue h =>
      have hc : 3 * t ≤ 4 * f := by
        have h4 : (3 * t : ℚ) ≤ (4 * f : ℚ) := by linarith
        exact_mod_cast h4
      simp [hc]
    case isFalse h =>
      have hc : ¬ 3 * t ≤ 4 * f := by
        intro hle
        apply h
        have h4 : ((3 * t : ℕ) : ℚ) ≤ ((4 * f : ℕ) : ℚ) := by exact_mod_cast hle
        push_cast at h4
        linarith
      simp [hc]
  · unfold guidedTimeout
    rw [if_neg]
    norm_num

/-- C7: the manual-mode Process action is disabled exactly while fewer than
12 frames exist, independent of the selected quality profile; with 10
frames it is rejected, with 12 it is accepted. -/
theorem manual_finish_floor :
    (∀ s s' : QualitySetting, ∀ k : ℕ,
        processDisabled s k = processDisabled s' k) ∧
      (∀ s : QualitySetting, ∀ k : ℕ, processDisabled s k = false ↔ 12 ≤ k) ∧
      processDisabled (QUALITY_SETTINGS .ultra) 10 = true ∧
      processDisabled (QUALITY_SETTINGS .ultra) 12 = false := by
  refine ⟨fun _ _ _ => rfl, ?_, rfl, rfl⟩
  intro s k
  unfold processDisabled
  simp only [decide_eq_false_iff_not, Nat.not_lt]

/-- C3 counterexample: with the 36-frame profile (10° increment), reference
heading `0`, one frame captured at heading `0`, and the heading now at
`359` (circular delta from the reference: 1°), the code captures a second
frame — `|359 - 0| = 359 ≥ 10` — although the specification's condition
(shortest-arc delta from the reference passing the next uncaptured
multiple) is false. -/
theorem guidedTick_defies_spec_condition :
    (guidedTick 36 { lastCaptureAngle := 0, frames := [0] } 359).frames
        = [0, 359] ∧
      ¬ specShouldCapture 36 0 359 1 := by
  constructor
  · unfold guidedTick
    dsimp only
    rw [if_pos]
    · rfl
    · left
      norm_num
  · unfold specShouldCapture headingDelta
    norm_num

/-- C3 amended: in guided mode a tick captures a new frame exactly when the
raw absolute difference between the current heading and the heading at the
previous capture reaches `360 / frameCount` degrees — measured from the
last capture, not from the session reference, and without circular
wrap-around — or when no frame has been captured yet. -/
theorem guidedTick_capture_iff (n : ℕ) (s : GuidedState) (h : ℚ)
    (hn : 0 < n) :
    (guidedTick n s h).frames.length = s.frames.length + 1 ↔
      (360 / (n : ℚ) ≤ |h - s.lastCaptureAngle| ∨ s.frames = []) := by
  unfold guidedTick
  dsimp only
  split
  case isTrue hc => exact iff_of_true (by simp) hc
  case isFalse hc => exact iff_of_false (by omega) hc

/-- C3 witness: the amended capture condition evaluated at the
counterexample's state. -/
theorem guidedTick_capture_iff_witness :
    0 < 36 ∧
      ((guidedTick 36 { lastCaptureAngle := 0, frames := [0] } 359).frames.length
          = ({ lastCaptureAngle := 0, frames := [0] } : GuidedState).frames.length
            + 1 ↔
        (360 / ((36 : ℕ) : ℚ) ≤
            |(359 : ℚ) -
              ({ lastCaptureAngle := 0, frames := [0] } :
                GuidedState).lastCaptureAngle| ∨
          ({ lastCaptureAngle := 0, frames := [0] } : GuidedState).frames
            = [])) :=
  ⟨by norm_num, guidedTick_capture_iff 36 _ 359 (by norm_num)⟩

/-- C8 counterexample: with the `high` profile (`frames = 24`), the
auto-capture loop has already taken 25 frames after 12.5 s and is still
running — reaching `frameCount` does not stop autonomous capture. -/
theorem autoCapture_ignores_frameCount :
    (QUALITY_SETTINGS .high).frames = 24 ∧ (autoRun 25).frames = 25 ∧
      (autoRun 25).elapsedMs = 12500 ∧ (autoRun 25).running = true := by
  refine ⟨rfl, ?_, ?_, ?_⟩ <;> decide

theorem autoTick_of_running (s : AutoState) (h : s.running = true) :
    autoTick s =
      { frames := s.frames + 1, elapsedMs := s.elapsedMs + 500,
        running := decide (s.elapsedMs + 500 < captureDuration) } := by
  unfold autoTick
  rw [h]
  rfl

theorem autoTick_of_stopped (s : AutoState) (h : s.running = false) :
    autoTick s = s := by
  unfold autoTick
  rw [h]
  rfl

theorem autoRun_succ (n : ℕ) : autoRun (n + 1) = autoTick (autoRun n) := by
  unfold autoRun
  exact Function.iterate_succ_apply' autoTick n _

/-- C8 amended: in automatic mode a frame is captured on every 500 ms tick
regardless of orientation, and the loop stops exactly when the elapsed
time reaches the 20 s budget (`captureDuration`), i.e. after tick 40, with
40 frames — the profile's frame count is never consulted and never stops
capture early. -/
theorem autoRun_spec (k : ℕ) :
    (autoRun k).frames = min k 40 ∧
      (autoRun k).elapsedMs = 500 * min k 40 ∧
      ((autoRun k).running = true ↔ k < 40) := by
  induction k with
  | zero =>
    refine ⟨rfl, rfl, ?_⟩
    simp [autoRun]
  | succ n ih =>
    obtain ⟨hf, he, hr⟩ := ih
    rw [autoRun_succ]
    by_cases hn : n < 40
    · rw [autoTick_of_running _ (hr.mpr hn), he]
      have hm : min n 40 = n := by omega
      rw [hm]
      refine ⟨?_, ?_, ?_⟩
      · dsimp only
        rw [hf, hm]
        omega
      · dsimp only
        omega
      · dsimp only
        unfold captureDuration
        simp only [decide_eq_true_eq]
        omega
    · rw [autoTick_of_stopped _ (by
        cases hb : (autoRun n).running
        · rfl
        · exact absurd (hr.mp hb) hn)]
      have hfalse : (autoRun n).running = false := by
        cases hb : (autoRun n).running
        · rfl
        · exact absurd (hr.mp hb) hn
      refine ⟨by rw [hf]; omega, by rw [he]; omega, ?_⟩
      rw [hfalse]
      simp only [Bool.false_eq_true, false_iff]
      omega

/-! ### Claim theorems: panorama assembly -/

/-- C4 counterexample: stitching an empty frame store does not fail — the
assembler performs no emptiness check, the per-frame loop simply does not
run, and an artifact (the background-filled canvas) is produced. -/
theorem stitch_empty_store_succeeds :
    (stitchProfessionalPanorama
        { frames := 36, width := 4, height := 2, quality := 1 } true
        (fun _ c => c) (fun _ c => c) 0).isSome = true := rfl

/-- C4 amended: `stitchProfessionalPanorama` never reports an assembly
failure: for every frame store — the empty one included — it returns a
`PanoramaArtifact`, and on an empty store the artifact's raster is exactly
the opaque-black background canvas (the sharpening pass fixes it). -/
theorem stitch_never_fails (settings : QualitySetting) (aiEnh : Bool)
    (draw blend : ℕ → List ℕ → List ℕ) (numFrames : ℕ) :
    (stitchProfessionalPanorama settings aiEnh draw blend numFrames).isSome
        = true ∧
      stitchProfessionalPanorama settings aiEnh draw blend 0
        = some { pixels := blackCanvas settings.width settings.height
                 frameCount := 0 } := by
  refine ⟨rfl, ?_⟩
  unfold stitchProfessionalPanorama stitchPixels
  dsimp only
  simp only [List.range_zero, List.foldl_nil]
  rw [fillRect_full _ _ _ (by rw [List.length_replicate])]
  cases aiEnh
  · rfl
  · simp only [if_true, sharpen_blackCanvas]

/-- C6: assembly output depends only on the frame store, profile and
enhancement flag: the opaque-black background fill covers the entire
canvas, so two runs over canvases with arbitrary (correctly-sized) prior
contents produce byte-identical pixel rasters. -/
theorem assemble_deterministic (tw th : ℕ) (aiEnh : Bool)
    (draw blend : ℕ → List ℕ → List ℕ) (numFrames : ℕ) (c1 c2 : List ℕ)
    (h1 : c1.length = 4 * (tw * th)) (h2 : c2.length = 4 * (tw * th)) :
    stitchPixels tw th aiEnh draw blend numFrames c1
      = stitchPixels tw th aiEnh draw blend numFrames c2 := by
  unfold stitchPixels
  rw [fillRect_full tw th c1 h1, fillRect_full tw th c2 h2]

/-- C6 witness: two 1×1 canvases with different prior contents yield the
same assembled raster. -/
theorem assemble_deterministic_witness :
    ([1, 2, 3, 4] : List ℕ).length = 4 * (1 * 1) ∧
      ([9, 8, 7, 6] : List ℕ).length = 4 * (1 * 1) ∧
      stitchPixels 1 1 false (fun _ c => c) (fun _ c => c) 0 [1, 2, 3, 4]
        = stitchPixels 1 1 false (fun _ c => c) (fun _ c => c) 0 [9, 8, 7, 6] :=
  ⟨by decide, by decide,
    assemble_deterministic 1 1 false (fun _ c => c) (fun _ c => c) 0
      [1, 2, 3, 4] [9, 8, 7, 6] (by decide) (by decide)⟩

/-- C9: the sharpening pass over a well-formed `width × height` RGBA
raster preserves its length, replaces each interior pixel's RGB bytes with
the clamped 3×3 kernel sum computed from the pre-pass values, and leaves
every edge pixel and every alpha byte unmodified. -/
theorem sharpenImage_interior_convolution (width height : ℕ)
    (data : List ℕ) (hlen : data.length = 4 * (width * height)) :
    (sharpenImage width height data).length = data.length ∧
      ∀ j, j < data.length →
        (sharpenImage width height data).getD j 0 =
          if j % 4 < 3 ∧ 1 ≤ j / 4 % width ∧ j / 4 % width < width - 1 ∧
              1 ≤ j / 4 / width ∧ j / 4 / width < height - 1 then
            clampSum (convAt data width (j / 4 % width) (j / 4 / width) (j % 4))
          else data.getD j 0 := by
  refine ⟨sharpen_length _ _ _, fun j hj => ?_⟩
  rw [sharpen_getD]
  by_cases hP : j % 4 < 3 ∧ 1 ≤ j / 4 % width ∧ j / 4 % width < width - 1 ∧
      1 ≤ j / 4 / width ∧ j / 4 / width < height - 1
  · rw [if_pos ⟨hP, hj⟩, if_pos hP]
  · rw [if_neg (fun hc => hP hc.1), if_neg hP]

/-- C10 witness: the pure-white single-pixel raster (`g = 255`) enhances to
the all-black pixel with alpha preserved. -/
theorem enhance_uniform_gray_is_black_witness :
    ([({ r := 255, g := 255, b := 255, a := 255 } : Pixel)] ≠ []) ∧
      255 ≤ 255 ∧
      (∀ p ∈ [({ r := 255, g := 255, b := 255, a := 255 } : Pixel)],
          p.r = 255 ∧ p.g = 255 ∧ p.b = 255) ∧
      enhanceImageData [{ r := 255, g := 255, b := 255, a := 255 }]
        = [({ r := 255, g := 255, b := 255, a := 255 } : Pixel)].map
            (fun p => { r := 0, g := 0, b := 0, a := p.a }) :=
  ⟨by decide, by decide, by decide,
    enhance_uniform_gray_is_black _ 255 (by decide) (by decide) (by decide)⟩

/-- C9 witness: the characterization instantiated on a concrete 3×3 RGBA
raster. -/
theorem sharpenImage_interior_convolution_witness :
    ((List.range 36).map (fun i => i % 7)).length = 4 * (3 * 3) ∧
      ((sharpenImage 3 3 ((List.range 36).map (fun i => i % 7))).length
          = ((List.range 36).map (fun i => i % 7)).length ∧
        ∀ j, j < ((List.range 36).map (fun i => i % 7)).length →
          (sharpenImage 3 3 ((List.range 36).map (fun i => i % 7))).getD j 0 =
            if j % 4 < 3 ∧ 1 ≤ j / 4 % 3 ∧ j / 4 % 3 < 3 - 1 ∧
                1 ≤ j / 4 / 3 ∧ j / 4 / 3 < 3 - 1 then
              clampSum (convAt ((List.range 36).map (fun i => i % 7)) 3
                (j / 4 % 3) (j / 4 / 3) (j % 4))
            else ((List.range 36).map (fun i => i % 7)).getD j 0) :=
  ⟨by decide, sharpenImage_interior_convolution 3 3 _ (by decide)⟩
